import Mathlib

attribute [local semireducible] Rat.mul Rat.inv Rat.add Rat.sub

namespace SimEngine

/-! Shallow embedding of the simulation engine sidecar
(src/sidecar/simulation_engine.py).  Python floats are modelled as exact
rationals, Python dicts as association lists, and the SimPy virtual-time
scheduler as an explicit wake-up queue ordered by (time, insertion sequence),
which reproduces the (time, priority, event id) heap order the code relies on:
process initialisation happens at time 0 in creation order before any timeout,
`Store.put` appends the item to `items` at once while its scheduled put event
later hands queued items to waiting getters in FIFO order (each resumption
being scheduled at the current time), a `get` on a non-empty store removes
the head at once and schedules the resumption, and `env.run(until=d)` stops
before processing any event whose time is `≥ d`.
Custom per-item scripts (arbitrary Python executed per item) are abstracted as
pure functions returning `Option (Bool × ℚ)`, where `none` stands for a raised
fault or a malformed result, both of which the code catches identically. -/

/-- Python truthiness for an optional number: `x or d` yields `d` when `x` is
missing or zero. -/
def falsyOr (o : Option ℚ) (d : ℚ) : ℚ :=
  match o with
  | some x => if x = 0 then d else x
  | none => d

/-- Python truthiness for an optional string: a missing or empty string is
falsy. -/
def truthyStr (o : Option String) : Option String :=
  match o with
  | some s => if s = "" then none else some s
  | none => none

/-- Python `int()` applied to a number: truncation toward zero. -/
def pyTrunc (q : ℚ) : ℤ := if 0 ≤ q then ⌊q⌋ else ⌈q⌉

/-- Round half to even, as Python `round` does, on exact rationals. -/
def bankersRound (x : ℚ) : ℤ :=
  let f := ⌊x⌋
  let r := x - (f : ℚ)
  if r < 1/2 then f
  else if 1/2 < r then f + 1
  else if f % 2 = 0 then f else f + 1

/-- Python `round(x, 4)`. -/
def round4 (q : ℚ) : ℚ := (bankersRound (q * 10000) : ℚ) / 10000

/-- Items travelling through block stores: injected stimuli (carrying the
signal name and value) and forwarded item sequence numbers. -/
inductive Item where
  | stim (signal : String) (value : Option String)
  | forwarded (seq : ℕ)
  deriving Repr, DecidableEq

/-- The `sim_params` dictionary of a block behavior. -/
structure Params where
  processing_time_ms : Option ℚ := none
  failure_rate : Option ℚ := none
  queue_capacity : Option ℚ := none
  throughput_per_sec : Option ℚ := none
  deriving Repr, DecidableEq

/-- Abstraction of a custom per-item `sim_script`: given the item, the params
dictionary and the current simulated time, it either returns a result
`(failed, processing_time_ms)` or faults (`none`, covering both a raised
exception and a malformed result dictionary). -/
def Script : Type := Item → Params → ℚ → Option (Bool × ℚ)

/-- One entry of `block_behaviors`.  `sim_script := none` covers both a
missing script and a falsy (empty) script string, which the code treats
alike (`if script:`). -/
structure Behavior where
  sim_params : Params := {}
  sim_script : Option Script := none

/-- One scenario stimulus event.  The engine reads the keys `time_ms`,
`block_id`, `target_id`, `signal_type` and `value`; the `target_block_id`
key named by the request schema is carried here as well but is never read by
any engine operation. -/
structure StimEvent where
  time_ms : Option ℚ := none
  block_id : Option String := none
  target_id : Option String := none
  target_block_id : Option String := none
  signal_type : Option String := none
  value : Option String := none
  deriving Repr, DecidableEq

structure Scenario where
  duration_ms : Option ℚ := none
  events : List StimEvent := []
  deriving Repr, DecidableEq

structure Node where
  id : String
  kind : String
  deriving Repr, DecidableEq

structure Edge where
  kind : Option String := none
  source_id : Option String := none
  target_id : Option String := none
  deriving Repr, DecidableEq

/-- The decoded request payload. -/
structure Input where
  nodes : List Node := []
  edges : List Edge := []
  scenario : Scenario := {}
  block_behaviors : List (String × Behavior) := []

structure BlockMetrics where
  utilization : ℚ
  queue_depth : ℕ
  processed_count : ℤ
  failures : ℤ
  deriving Repr, DecidableEq

inductive EventType where
  | processed
  | failure
  | stimulus
  deriving Repr, DecidableEq

/-- Structured form of the timeline `detail` strings:
`itemDone seq elapsed` for "item {seq} done in {elapsed}ms",
`itemFailed seq elapsed` for "item {seq} failed after {elapsed}ms",
`signal name` for "signal={name}". -/
inductive Detail where
  | itemDone (seq : ℕ) (elapsed : ℚ)
  | itemFailed (seq : ℕ) (elapsed : ℚ)
  | signal (name : String)
  deriving Repr, DecidableEq

structure TimelineEntry where
  timestamp_ms : ℚ
  block_id : String
  event_type : EventType
  detail : Detail
  deriving Repr, DecidableEq

inductive Status where
  | complete
  | error
  deriving Repr, DecidableEq

structure Response where
  status : Status
  metrics : List (String × BlockMetrics)
  timeline : List TimelineEntry
  errors : List String
  deriving Repr, DecidableEq

/-- Lookup of a block behavior; a missing entry behaves as an empty dict. -/
def behaviorOf (inp : Input) (b : String) : Behavior :=
  (inp.block_behaviors.lookup b).getD {}

def paramsOf (inp : Input) (b : String) : Params := (behaviorOf inp b).sim_params

def scriptOf (inp : Input) (b : String) : Option Script := (behaviorOf inp b).sim_script

/-- Python `float(params.get("processing_time_ms") or 100.0)`. -/
def effPtime (p : Params) : ℚ := falsyOr p.processing_time_ms 100

/-- Python `float(params.get("failure_rate") or 0.0)`. -/
def effRate (p : Params) : ℚ := falsyOr p.failure_rate 0

/-- Python `int(params.get("queue_capacity") or 100)`. -/
def effCap (p : Params) : ℤ := pyTrunc (falsyOr p.queue_capacity 100)

/-- Python `float(scenario.get("duration_ms") or 10000)`: a missing or zero
duration is replaced by the default 10000. -/
def effDuration (o : Option ℚ) : ℚ := falsyOr o 10000

/-- Python `float(e.get("time_ms") or 0)`. -/
def effTime (ev : StimEvent) : ℚ := falsyOr ev.time_ms 0

/-- Python `ev.get("signal_type", "trigger")` (plain default, no truthiness). -/
def effSignal (ev : StimEvent) : String := ev.signal_type.getD "trigger"

/-- Target resolution `ev.get("block_id") or ev.get("target_id")`, followed by the
truthiness test `if target_id`. -/
def effTarget (ev : StimEvent) : Option String :=
  match truthyStr ev.block_id with
  | some t => some t
  | none => truthyStr ev.target_id

/-- Python dict insertion: replace the value at the first occurrence of the
key, else append at the end. -/
def updateAssoc {α : Type} (k : String) (v : α) : List (String × α) → List (String × α)
  | [] => [(k, v)]
  | (k', v') :: rest => if k' = k then (k, v) :: rest else (k', v') :: updateAssoc k v rest

/-- Key list of a Python dict comprehension: first occurrence order, no
duplicates. -/
def firstDedupAux : List String → List String → List String
  | _, [] => []
  | seen, a :: l =>
    if a ∈ seen then firstDedupAux seen l else a :: firstDedupAux (a :: seen) l

def firstDedup (l : List String) : List String := firstDedupAux [] l

/-- Ids of the nodes with `kind == "block"`, in dict-comprehension order. -/
def simBlockIds (inp : Input) : List String :=
  firstDedup ((inp.nodes.filter (fun n => n.kind = "block")).map (fun n => n.id))

/-- The advisory string `run_deterministic` always emits. -/
def simpyAdvisory : String :=
  "SimPy is not installed — results are theoretical approximations only. Install with: pip install simpy"

/-- The `else: processed = 0` arm of the approximator together with the
`elif processing_time_ms > 0` guard. -/
def detProcessedFallback (duration : ℚ) (p : Params) : ℤ :=
  if 0 < effPtime p then pyTrunc (duration / effPtime p) else 0

/-- The `processed` value of the deterministic approximator: the `if throughput_per_sec:`
branch (truthiness: present and nonzero) computes
`int(float(throughput_per_sec) * (duration_ms / 1000.0))`. -/
def detProcessed (duration : ℚ) (p : Params) : ℤ :=
  match p.throughput_per_sec with
  | some tp => if tp = 0 then detProcessedFallback duration p else pyTrunc (tp * (duration / 1000))
  | none => detProcessedFallback duration p

/-- Per-block metrics of `run_deterministic`. -/
def detMetricsFor (duration : ℚ) (p : Params) : BlockMetrics :=
  let processed := detProcessed duration p
  let failures := pyTrunc ((processed : ℚ) * effRate p)
  let util := if 0 < duration then min (effPtime p * (processed : ℚ) / duration) 1 else 0
  { utilization := round4 util
    queue_depth := 0
    processed_count := max 0 (processed - failures)
    failures := failures }

/-- The deterministic (SimPy-free) path. -/
def run_deterministic (inp : Input) : Response :=
  let duration := effDuration inp.scenario.duration_ms
  let metrics := inp.nodes.foldl
    (fun acc n =>
      if n.kind = "block" then updateAssoc n.id (detMetricsFor duration (paramsOf inp n.id)) acc
      else acc) []
  { status := .complete, metrics := metrics, timeline := [], errors := [simpyAdvisory] }

/-- Per-block coroutine position inside the `block_process` loop. -/
inductive Phase where
  | waiting
  | gotItem (item : Item)
  | processing (failed : Bool) (procTime : ℚ)
  deriving Repr, DecidableEq, Inhabited

structure StoreState where
  cap : ℤ
  buffer : List Item
  getters : List String
  deriving Repr, DecidableEq, Inhabited

structure BlockState where
  phase : Phase
  itemSeq : ℕ
  processed : ℕ
  failures : ℕ
  busy : ℚ
  deriving Repr, DecidableEq, Inhabited

inductive WakeTask where
  | block (id : String)
  | injector
  | storePut (id : String)
  deriving Repr, DecidableEq

structure SimState where
  now : ℚ
  queue : List (ℚ × ℕ × WakeTask)
  nextSeq : ℕ
  stores : List (String × StoreState)
  blocks : List (String × BlockState)
  injIdx : ℕ
  timeline : List TimelineEntry
  rngIdx : ℕ
  error : Bool
  deriving Repr, DecidableEq

def lookupStore (s : SimState) (b : String) : Option StoreState := s.stores.lookup b

def lookupBlock (s : SimState) (b : String) : Option BlockState := s.blocks.lookup b

def setStore (s : SimState) (b : String) (st : StoreState) : SimState :=
  { s with stores := updateAssoc b st s.stores }

def setBlock (s : SimState) (b : String) (bs : BlockState) : SimState :=
  { s with blocks := updateAssoc b bs s.blocks }

/-- Heap order of the scheduler: earlier time first, ties broken by insertion
sequence. -/
def wakeBefore (a b : ℚ × ℕ × WakeTask) : Bool :=
  if a.1 < b.1 then true else if a.1 = b.1 then decide (a.2.1 < b.2.1) else false

def insertWake (w : ℚ × ℕ × WakeTask) : List (ℚ × ℕ × WakeTask) → List (ℚ × ℕ × WakeTask)
  | [] => [w]
  | x :: xs => if wakeBefore w x then w :: x :: xs else x :: insertWake w xs

/-- Schedule a wake-up, consuming a fresh insertion sequence number. -/
def pushWake (s : SimState) (t : ℚ) (task : WakeTask) : SimState :=
  { s with queue := insertWake (t, s.nextSeq, task) s.queue, nextSeq := s.nextSeq + 1 }

/-- Hand buffered items to waiting getters in FIFO order: returns the
performed hand-offs, the remaining getters and the remaining buffer. -/
def feedQueue : List String → List Item → List (String × Item) × List String × List Item
  | gs, [] => ([], gs, [])
  | [], buf => ([], [], buf)
  | g :: gs, i :: buf =>
    let r := feedQueue gs buf
    ((g, i) :: r.1, r.2.1, r.2.2)

/-- Resume each handed-off getter: its coroutine will run `item_seq += 1` and
the policy on wake-up, so its phase becomes `gotItem` and it is scheduled at
the current time. -/
def applyHandoffs : SimState → List (String × Item) → SimState
  | s, [] => s
  | s, (g, i) :: rest =>
    let bs := (lookupBlock s g).getD default
    applyHandoffs (pushWake (setBlock s g { bs with phase := .gotItem i }) s.now (.block g)) rest

/-- SimPy `Store.put` (called only after the caller checked
`len(store.items) < store.capacity`): the item is appended to `items` at
once, and the put event — whose callback hands queued items to waiting
getters — is scheduled at the current time. -/
def putItem (s : SimState) (tid : String) (item : Item) : SimState :=
  match lookupStore s tid with
  | none => s
  | some st =>
    pushWake (setStore s tid { st with buffer := st.buffer ++ [item] }) s.now (.storePut tid)

/-- Processing of a scheduled put event (`_trigger_get`): hand buffered items
to the store's waiting getters in FIFO order, scheduling each resumed block
at the current time. -/
def triggerGet (tid : String) (s : SimState) : SimState :=
  match lookupStore s tid with
  | none => s
  | some st =>
    let fed := feedQueue st.getters st.buffer
    applyHandoffs (setStore s tid { cap := st.cap, buffer := fed.2.2, getters := fed.2.1 }) fed.1

/-- Body of the event injector for one stimulus event (after its wake-up):
resolve the target, and if it names an existing store with room, put the
stimulus item and append a `stimulus` timeline entry; otherwise do nothing. -/
def deliverEvent (s : SimState) (ev : StimEvent) : SimState :=
  match effTarget ev with
  | none => s
  | some tid =>
    match lookupStore s tid with
    | none => s
    | some st =>
      if (st.buffer.length : ℤ) < st.cap then
        let s1 := putItem s tid (.stim (effSignal ev) ev.value)
        { s1 with timeline := s1.timeline ++
            [{ timestamp_ms := s.now, block_id := tid, event_type := .stimulus,
               detail := .signal (effSignal ev) }] }
      else s

/-- Stable insertion into a list sorted by `effTime` (the inserted event came
earlier in the original order, so it goes before events of equal time). -/
def insertByTime (ev : StimEvent) : List StimEvent → List StimEvent
  | [] => [ev]
  | e :: es => if effTime ev ≤ effTime e then ev :: e :: es else e :: insertByTime ev es

/-- Python `sorted(events, key=lambda e: float(e.get("time_ms") or 0))` (stable). -/
def sortEventsByTime : List StimEvent → List StimEvent
  | [] => []
  | e :: es => insertByTime e (sortEventsByTime es)

/-- One wake-up of the event injector: deliver the current event, then
suspend until the next event time (clamped below by now). -/
def injectorStep (inp : Input) (s : SimState) : SimState :=
  let events := sortEventsByTime inp.scenario.events
  match events[s.injIdx]? with
  | none => s
  | some ev =>
    let s1 := deliverEvent s ev
    let s2 := { s1 with injIdx := s.injIdx + 1 }
    match events[s.injIdx + 1]? with
    | none => s2
    | some ev2 => pushWake s2 (s2.now + max 0 (effTime ev2 - s2.now)) .injector

/-- The per-item processing policy: a truthy custom script is invoked and any
fault or malformed result is caught and replaced by
`(False, processing_time_ms)`; without a script the parametric model consumes
one random draw.  Returns `(failed, proc_time, next draw index)`. -/
def evalPolicy (script : Option Script) (p : Params) (draws : ℕ → ℚ) (k : ℕ)
    (item : Item) (now : ℚ) : Bool × ℚ × ℕ :=
  match script with
  | some f =>
    match f item p now with
    | some r => (r.1, r.2, k)
    | none => (false, effPtime p, k)
  | none => (decide (draws k < effRate p), effPtime p, k + 1)

/-- A block wakes up holding a fresh item: bump `item_seq`, run the policy and
suspend for the returned duration.  A negative duration makes
`env.timeout` raise, which aborts the whole run. -/
def beginProcessing (inp : Input) (draws : ℕ → ℚ) (b : String) (item : Item)
    (s : SimState) : SimState :=
  let bs := (lookupBlock s b).getD default
  let p := paramsOf inp b
  let r := evalPolicy (scriptOf inp b) p draws s.rngIdx item s.now
  if r.2.1 < 0 then { s with error := true }
  else
    let s1 := setBlock s b { bs with phase := .processing r.1 r.2.1, itemSeq := bs.itemSeq + 1 }
    pushWake { s1 with rngIdx := r.2.2 } (s.now + r.2.1) (.block b)

/-- Forwarding along one edge: a `connects` edge out of `b` whose target
store exists receives the item sequence number, unless the target store is
full (silent drop). -/
def forwardStep (b : String) (seq : ℕ) (acc : SimState) (e : Edge) : SimState :=
  if e.kind = some "connects" ∧ e.source_id = some b then
    match e.target_id with
    | some t =>
      match lookupStore acc t with
      | none => acc
      | some st =>
        if (st.buffer.length : ℤ) < st.cap then putItem acc t (.forwarded seq) else acc
    | none => acc
  else acc

/-- Forward a successful item along every `connects` edge whose target store
exists, dropping silently when the target store is full. -/
def forwardAll (inp : Input) (b : String) (seq : ℕ) (s : SimState) : SimState :=
  inp.edges.foldl (forwardStep b seq) s

/-- The bookkeeping a block performs right after its processing timeout
elapses: add the elapsed time (exactly the scheduled duration) to the busy
counter, bump the `failures` or `processed` counter and append the matching
timeline entry. -/
def recordOutcome (b : String) (failed : Bool) (procTime : ℚ) (s : SimState) : SimState :=
  let bs := (lookupBlock s b).getD default
  let bs1 :=
    if failed then { bs with busy := bs.busy + procTime, failures := bs.failures + 1 }
    else { bs with busy := bs.busy + procTime, processed := bs.processed + 1 }
  let entry : TimelineEntry :=
    if failed then
      { timestamp_ms := s.now, block_id := b, event_type := .failure,
        detail := .itemFailed bs.itemSeq procTime }
    else
      { timestamp_ms := s.now, block_id := b, event_type := .processed,
        detail := .itemDone bs.itemSeq procTime }
  { setBlock s b bs1 with timeline := s.timeline ++ [entry] }

/-- The loop head of `block_process`: `store.get()` either takes the buffer
head at once (resuming at the current time) or registers the block as a
waiting getter. -/
def blockReGet (b : String) (s : SimState) : SimState :=
  match lookupStore s b with
  | none => s
  | some st =>
    let bs2 := (lookupBlock s b).getD default
    match st.buffer with
    | [] => setBlock (setStore s b { st with getters := st.getters ++ [b] }) b
        { bs2 with phase := .waiting }
    | i :: rest =>
      pushWake (setBlock (setStore s b { st with buffer := rest }) b
        { bs2 with phase := .gotItem i }) s.now (.block b)

/-- A block wakes up after its processing timeout: record busy time and a
timeline entry, fan out on success, then loop back to `store.get()`. -/
def finishProcessing (inp : Input) (b : String) (failed : Bool) (procTime : ℚ)
    (s : SimState) : SimState :=
  let s1 := recordOutcome b failed procTime s
  let s2 := if failed then s1
    else forwardAll inp b ((lookupBlock s b).getD default).itemSeq s1
  blockReGet b s2

def runTask (inp : Input) (draws : ℕ → ℚ) (task : WakeTask) (s : SimState) : SimState :=
  match task with
  | .injector => injectorStep inp s
  | .storePut tid => triggerGet tid s
  | .block b =>
    match lookupBlock s b with
    | none => s
    | some bs =>
      match bs.phase with
      | .gotItem item => beginProcessing inp draws b item s
      | .processing failed procTime => finishProcessing inp b failed procTime s
      | .waiting => s

/-- Pop and run the earliest wake-up, unless the queue is exhausted or the
next wake-up time has reached the duration bound (the stop event of
`env.run(until=duration)` is urgent, so events at exactly the bound never
run). -/
def stepSim (inp : Input) (draws : ℕ → ℚ) (duration : ℚ) (s : SimState) : Option SimState :=
  match s.queue with
  | [] => none
  | (t, _, task) :: rest =>
    if duration ≤ t then none
    else some (runTask inp draws task { s with now := t, queue := rest })

def runLoop (inp : Input) (draws : ℕ → ℚ) (duration : ℚ) : ℕ → SimState → SimState
  | 0, s => s
  | n + 1, s =>
    match stepSim inp draws duration s with
    | none => s
    | some s' => if s'.error then s' else runLoop inp draws duration n s'

/-- State after process creation: every block process has run to its first
`store.get()` on an empty store (registering as a getter), and the injector,
created last and only when the scenario has events, has suspended until the
first event time. -/
def initState (inp : Input) : SimState :=
  let bids := simBlockIds inp
  let stores := bids.map (fun b =>
    (b, ({ cap := effCap (paramsOf inp b), buffer := [], getters := [b] } : StoreState)))
  let blocks := bids.map (fun b =>
    (b, ({ phase := .waiting, itemSeq := 0, processed := 0, failures := 0, busy := 0 } : BlockState)))
  let queue :=
    match sortEventsByTime inp.scenario.events with
    | [] => []
    | e :: _ => [(max 0 (effTime e), 0, WakeTask.injector)]
  { now := 0, queue := queue, nextSeq := 1, stores := stores, blocks := blocks,
    injIdx := 0, timeline := [], rngIdx := 0, error := false }

/-- Simulation state after at most `fuel` scheduler steps. -/
def simAfter (inp : Input) (draws : ℕ → ℚ) (fuel : ℕ) : SimState :=
  runLoop inp draws (effDuration inp.scenario.duration_ms) fuel (initState inp)

/-- Error response of the dispatcher: metrics and timeline are discarded and
the errors list carries the exception text and traceback (abstracted). -/
def simErrorResponse : Response :=
  { status := .error, metrics := [], timeline := [], errors := ["simulation fault", "traceback"] }

def mkMetrics (duration : ℚ) (s : SimState) (b : String) : BlockMetrics :=
  let c := (lookupBlock s b).getD default
  let st := (lookupStore s b).getD default
  let util := if 0 < duration then c.busy / duration else 0
  { utilization := round4 (min util 1), queue_depth := st.buffer.length,
    processed_count := (c.processed : ℤ), failures := (c.failures : ℤ) }

/-- The full SimPy path.  `sp.Store(env, capacity=c)` raises for `c ≤ 0` and
`env.run(until=d)` raises for `d ≤ 0`, both of which the dispatcher turns
into an error response; a mid-run fault (negative processing duration) does
the same. -/
def run_with_simpy (inp : Input) (draws : ℕ → ℚ) (fuel : ℕ) : Response :=
  let duration := effDuration inp.scenario.duration_ms
  let bids := simBlockIds inp
  if bids.any (fun b => decide (effCap (paramsOf inp b) ≤ 0)) then simErrorResponse
  else if duration ≤ 0 then simErrorResponse
  else
    let sF := simAfter inp draws fuel
    if sF.error then simErrorResponse
    else
      { status := .complete,
        metrics := bids.map (fun b => (b, mkMetrics duration sF b)),
        timeline := sF.timeline, errors := [] }

/-- The dispatcher `process`: full simulation when SimPy imported, else the
deterministic approximation. -/
def process (simpyOk : Bool) (inp : Input) (draws : ℕ → ℚ) (fuel : ℕ) : Response :=
  if simpyOk then run_with_simpy inp draws fuel else run_deterministic inp

/-- Number of `stimulus` entries in a timeline. -/
def stimulusCount (tl : List TimelineEntry) : ℕ :=
  tl.countP (fun e => decide (e.event_type = EventType.stimulus))

/-- A fixed stream of random draws (every draw is 0, a value `random.random()`
can produce). -/
def d0 : ℕ → ℚ := fun _ => 0

/-- Store invariant maintained throughout a run: every store keeps the
capacity derived from its block's `sim_params` and its buffer never holds
more than `max capacity 0` items. -/
def StoresOk (inp : Input) (l : List (String × StoreState)) : Prop :=
  ∀ p ∈ l, p.2.cap = effCap (paramsOf inp p.1) ∧
    (p.2.buffer.length : ℤ) ≤ max p.2.cap 0

/-- Block invariant maintained throughout a run: nonnegative accumulated busy
time and, while in the `processing` phase, a nonnegative pending duration. -/
def BlocksOk (l : List (String × BlockState)) : Prop :=
  ∀ p ∈ l, 0 ≤ p.2.busy ∧
    ∀ f pr, p.2.phase = Phase.processing f pr → 0 ≤ pr

/-- Request with an always-faulting custom policy on a block whose
parametric failure rate is 1. -/
def c1Input : Input :=
  { nodes := [{ id := "b", kind := "block" }],
    scenario := { duration_ms := some 1000,
                  events := [{ time_ms := some 0, block_id := some "b" }] },
    block_behaviors := [("b", { sim_params := { failure_rate := some 1 },
                                sim_script := some (fun _ _ _ => none) })] }

/-- Request with scenario duration 0 and one block with processing time
100. -/
def c2Input : Input :=
  { nodes := [{ id := "b", kind := "block" }],
    scenario := { duration_ms := some 0 },
    block_behaviors := [("b", { sim_params := { processing_time_ms := some 100 } })] }

/-- Capacity-1 block that stays busy for 1000 ms, receiving stimuli at
t = 0, 1, 2: the third arrives at a full store. -/
def c3Input : Input :=
  { nodes := [{ id := "b", kind := "block" }],
    scenario := { duration_ms := some 500,
                  events := [{ time_ms := some 0, block_id := some "b" },
                             { time_ms := some 1, block_id := some "b" },
                             { time_ms := some 2, block_id := some "b" }] },
    block_behaviors := [("b", { sim_params := { processing_time_ms := some 1000,
                                                queue_capacity := some 1 } })] }

/-- Two stimuli at the same timestamp delivered to the same idle block with
queue capacity 1. -/
def c3bInput : Input :=
  { nodes := [{ id := "b", kind := "block" }],
    scenario := { duration_ms := some 1000,
                  events := [{ time_ms := some 5, block_id := some "b" },
                             { time_ms := some 5, block_id := some "b" }] },
    block_behaviors := [("b", { sim_params := { queue_capacity := some 1 } })] }

/-- A stimulus event carrying both a `block_id` ("b1") and a
`target_block_id` ("b2") field. -/
def c4Input : Input :=
  { nodes := [{ id := "b1", kind := "block" }, { id := "b2", kind := "block" }],
    scenario := { duration_ms := some 1000,
                  events := [{ time_ms := some 0, block_id := some "b1",
                               target_block_id := some "b2" }] } }

/-- A concrete mid-run state with two empty stores, used to exhibit a single
stimulus delivery. -/
def c4State : SimState :=
  { now := 7, queue := [], nextSeq := 3,
    stores := [("b1", { cap := 5, buffer := [], getters := [] }),
               ("b2", { cap := 5, buffer := [], getters := [] })],
    blocks := [("b1", default), ("b2", default)],
    injIdx := 0, timeline := [], rngIdx := 0, error := false }

def c4Event : StimEvent :=
  { time_ms := some 7, block_id := some "b1", target_block_id := some "b2" }

/-- Deterministic-path request with processing time 100 and failure rate
one half over a 10000 ms scenario. -/
def c5Input : Input :=
  { nodes := [{ id := "b", kind := "block" }],
    scenario := { duration_ms := some 10000 },
    block_behaviors := [("b", { sim_params := { processing_time_ms := some 100,
                                                failure_rate := some (1/2) } })] }

/-- Block configured with `queue_capacity = 0`, kept busy past the run end
while a second stimulus is parked in its store. -/
def c6Input : Input :=
  { nodes := [{ id := "b", kind := "block" }],
    scenario := { duration_ms := some 5000,
                  events := [{ time_ms := some 0, block_id := some "b" },
                             { time_ms := some 1, block_id := some "b" }] },
    block_behaviors := [("b", { sim_params := { processing_time_ms := some 10000,
                                                queue_capacity := some 0 } })] }

/-- Deterministic-path request with a negative `throughput_per_sec`. -/
def c7Input : Input :=
  { nodes := [{ id := "b", kind := "block" }],
    scenario := { duration_ms := some 1000 },
    block_behaviors := [("b", { sim_params := { throughput_per_sec := some (-1) } })] }

/-- Request whose only stimulus event names a block that is not in the
graph. -/
def c10Input : Input :=
  { nodes := [{ id := "b", kind := "block" }],
    scenario := { duration_ms := some 1000,
                  events := [{ time_ms := some 0, block_id := some "ghost" }] } }

/-- The same request without the unknown-target event. -/
def c10BaseInput : Input :=
  { nodes := [{ id := "b", kind := "block" }],
    scenario := { duration_ms := some 1000 } }

def c10Event : StimEvent := { time_ms := some 0, block_id := some "ghost" }

/-- A concrete mid-run state whose only store is full (capacity 1, one
buffered item). -/
def c3State : SimState :=
  { now := 9, queue := [], nextSeq := 1,
    stores := [("q", { cap := 1, buffer := [Item.forwarded 4], getters := [] })],
    blocks := [("q", default)],
    injIdx := 0, timeline := [], rngIdx := 0, error := false }

def c3Event : StimEvent := { time_ms := some 9, block_id := some "q" }

theorem lookup_updateAssoc {α : Type} (k : String) (v : α) (l : List (String × α)) (b : String) :
    (updateAssoc k v l).lookup b = if b = k then some v else l.lookup b := by
  induction l with
  | nil => by_cases hb : b = k <;> simp [updateAssoc, hb]
  | cons hd tl ih =>
    obtain ⟨k', v'⟩ := hd
    by_cases hk : k' = k
    · subst hk
      by_cases hb : b = k'
      · simp [updateAssoc, hb]
      · simp [updateAssoc, hb, List.lookup_cons, beq_false_of_ne hb]
    · by_cases hb : b = k'
      · subst hb
        have hbk : ¬ b = k := hk
        simp [updateAssoc, hk, hbk, List.lookup_cons]
      · simp [updateAssoc, hk, hb, List.lookup_cons, beq_false_of_ne hb, ih]

theorem mem_updateAssoc {α : Type} {k : String} {v : α} {l : List (String × α)}
    {p : String × α} (hp : p ∈ updateAssoc k v l) : p = (k, v) ∨ p ∈ l := by
  induction l with
  | nil => simpa [updateAssoc] using hp
  | cons hd tl ih =>
    obtain ⟨k', v'⟩ := hd
    by_cases hk : k' = k
    · subst hk
      rcases List.mem_cons.mp (by simpa [updateAssoc] using hp) with h | h
      · exact Or.inl h
      · exact Or.inr (List.mem_cons_of_mem _ h)
    · rcases List.mem_cons.mp (by simpa [updateAssoc, hk] using hp) with h | h
      · exact Or.inr (by simp [h])
      · rcases ih h with h' | h'
        · exact Or.inl h'
        · exact Or.inr (List.mem_cons_of_mem _ h')

theorem lookup_mem {α : Type} {l : List (String × α)} {k : String} {v : α}
    (h : l.lookup k = some v) : (k, v) ∈ l := by
  induction l with
  | nil => simp [List.lookup] at h
  | cons hd tl ih =>
    obtain ⟨k', v'⟩ := hd
    rw [List.lookup_cons] at h
    by_cases hk : k = k'
    · subst hk
      simp at h
      simp [h]
    · simp [beq_false_of_ne hk] at h
      exact List.mem_cons_of_mem _ (ih h)

theorem lookup_map_pair {α : Type} (f : String → α) (l : List String) (b : String) (m : α)
    (h : (l.map (fun x => (x, f x))).lookup b = some m) : b ∈ l ∧ m = f b := by
  induction l with
  | nil => simp [List.lookup] at h
  | cons x xs ih =>
    rw [List.map_cons, List.lookup_cons] at h
    by_cases hb : b = x
    · subst hb
      simp at h
      simp [h.symm]
    · simp [beq_false_of_ne hb] at h
      rcases ih h with ⟨h1, h2⟩
      exact ⟨List.mem_cons_of_mem _ h1, h2⟩

theorem bankersRound_nonneg {x : ℚ} (hx : 0 ≤ x) : 0 ≤ bankersRound x := by
  have hf : 0 ≤ ⌊x⌋ := Int.le_floor.mpr (by exact_mod_cast hx)
  unfold bankersRound
  dsimp only
  split
  · exact hf
  · split
    · omega
    · split <;> omega

theorem bankersRound_le {x : ℚ} {n : ℤ} (hx : x ≤ (n : ℚ)) : bankersRound x ≤ n := by
  have hf : ⌊x⌋ ≤ n := by
    calc ⌊x⌋ ≤ ⌊(n : ℚ)⌋ := Int.floor_le_floor hx
    _ = n := Int.floor_intCast n
  have hlow : (⌊x⌋ : ℚ) ≤ x := Int.floor_le x
  unfold bankersRound
  dsimp only
  split
  · exact hf
  · rename_i hr
    push_neg at hr
    have hlt : ⌊x⌋ < n := by
      have : (⌊x⌋ : ℚ) + 1/2 ≤ (n : ℚ) := by
        have : (⌊x⌋ : ℚ) + 1/2 ≤ x := by linarith [hr]
        linarith
      by_contra hcon
      push_neg at hcon
      have : (n : ℚ) ≤ (⌊x⌋ : ℚ) := by exact_mod_cast hcon
      linarith
    split
    · omega
    · split <;> omega

theorem round4_nonneg {q : ℚ} (hq : 0 ≤ q) : 0 ≤ round4 q := by
  unfold round4
  have h : 0 ≤ bankersRound (q * 10000) := bankersRound_nonneg (by positivity)
  positivity

theorem round4_le_one {q : ℚ} (hq : q ≤ 1) : round4 q ≤ 1 := by
  unfold round4
  have h : bankersRound (q * 10000) ≤ (10000 : ℤ) := by
    apply bankersRound_le
    push_cast
    nlinarith
  rw [div_le_one (by norm_num)]
  exact_mod_cast h

theorem blocksOk_updateAssoc {l : List (String × BlockState)} {g : String} {bs : BlockState}
    (h : BlocksOk l) (h1 : 0 ≤ bs.busy)
    (h2 : ∀ f pr, bs.phase = Phase.processing f pr → 0 ≤ pr) :
    BlocksOk (updateAssoc g bs l) := by
  intro p hp
  rcases mem_updateAssoc hp with h' | h'
  · subst h'; exact ⟨h1, h2⟩
  · exact h p h'

theorem storesOk_updateAssoc {inp : Input} {l : List (String × StoreState)} {g : String}
    {st : StoreState} (h : StoresOk inp l) (h1 : st.cap = effCap (paramsOf inp g))
    (h2 : (st.buffer.length : ℤ) ≤ max st.cap 0) :
    StoresOk inp (updateAssoc g st l) := by
  intro p hp
  rcases mem_updateAssoc hp with h' | h'
  · subst h'; exact ⟨h1, h2⟩
  · exact h p h'

theorem blocksOk_getD {s : SimState} (h : BlocksOk s.blocks) (b : String) :
    0 ≤ ((lookupBlock s b).getD default).busy ∧
      ∀ f pr, ((lookupBlock s b).getD default).phase = Phase.processing f pr → 0 ≤ pr := by
  cases hl : lookupBlock s b with
  | none =>
    refine ⟨le_refl 0, ?_⟩
    intro f pr hpr
    exact Phase.noConfusion (show Phase.waiting = Phase.processing f pr from hpr)
  | some bs =>
    simpa [hl] using h (b, bs) (lookup_mem hl)

theorem storesOk_lookup {inp : Input} {s : SimState} (h : StoresOk inp s.stores) {b : String}
    {st : StoreState} (hl : lookupStore s b = some st) :
    st.cap = effCap (paramsOf inp b) ∧ (st.buffer.length : ℤ) ≤ max st.cap 0 :=
  h (b, st) (lookup_mem hl)

theorem feedQueue_buf_le : ∀ (gs : List String) (buf : List Item),
    (feedQueue gs buf).2.2.length ≤ buf.length := by
  intro gs
  induction gs with
  | nil => intro buf; cases buf <;> simp [feedQueue]
  | cons g gs ih =>
    intro buf
    cases buf with
    | nil => simp [feedQueue]
    | cons i buf => simpa [feedQueue] using Nat.le_succ_of_le (ih buf)

theorem applyHandoffs_stores : ∀ (hs : List (String × Item)) (s : SimState),
    (applyHandoffs s hs).stores = s.stores := by
  intro hs
  induction hs with
  | nil => intro s; rfl
  | cons hd t ih =>
    intro s
    obtain ⟨g, i⟩ := hd
    rw [applyHandoffs, ih]
    rfl

theorem applyHandoffs_timeline : ∀ (hs : List (String × Item)) (s : SimState),
    (applyHandoffs s hs).timeline = s.timeline := by
  intro hs
  induction hs with
  | nil => intro s; rfl
  | cons hd t ih =>
    intro s
    obtain ⟨g, i⟩ := hd
    rw [applyHandoffs, ih]
    rfl

theorem applyHandoffs_blocksOk : ∀ (hs : List (String × Item)) (s : SimState),
    BlocksOk s.blocks → BlocksOk (applyHandoffs s hs).blocks := by
  intro hs
  induction hs with
  | nil => intro s h; exact h
  | cons hd t ih =>
    intro s h
    obtain ⟨g, i⟩ := hd
    rw [applyHandoffs]
    apply ih
    show BlocksOk (updateAssoc g _ s.blocks)
    exact blocksOk_updateAssoc h (blocksOk_getD h g).1 (by intro f pr hpr; simp at hpr)

theorem putItem_timeline (s : SimState) (tid : String) (item : Item) :
    (putItem s tid item).timeline = s.timeline := by
  unfold putItem
  cases hl : lookupStore s tid with
  | none => rfl
  | some st => rfl

theorem putItem_storesOk {inp : Input} {s : SimState} {tid : String} {st : StoreState}
    (item : Item) (h : StoresOk inp s.stores) (hl : lookupStore s tid = some st)
    (hroom : (st.buffer.length : ℤ) < st.cap) :
    StoresOk inp (putItem s tid item).stores := by
  unfold putItem
  rw [hl]
  show StoresOk inp (updateAssoc tid _ s.stores)
  refine storesOk_updateAssoc h ?_ ?_
  · exact (storesOk_lookup h hl).1
  · have h4 : st.cap ≤ max st.cap 0 := le_max_left _ _
    show (((st.buffer ++ [item]).length : ℕ) : ℤ) ≤ max st.cap 0
    have h2 : (st.buffer ++ [item]).length = st.buffer.length + 1 := by simp
    rw [h2]
    push_cast
    omega

theorem putItem_blocksOk {s : SimState} {tid : String} (item : Item)
    (h : BlocksOk s.blocks) : BlocksOk (putItem s tid item).blocks := by
  unfold putItem
  cases hl : lookupStore s tid with
  | none => exact h
  | some st => exact h

theorem triggerGet_storesOk {inp : Input} {tid : String} {s : SimState}
    (h : StoresOk inp s.stores) : StoresOk inp (triggerGet tid s).stores := by
  unfold triggerGet
  cases hl : lookupStore s tid with
  | none => exact h
  | some st =>
    rw [applyHandoffs_stores]
    show StoresOk inp (updateAssoc tid _ s.stores)
    refine storesOk_updateAssoc h ?_ ?_
    · exact (storesOk_lookup h hl).1
    · have h1 := feedQueue_buf_le st.getters st.buffer
      have h2 := (storesOk_lookup h hl).2
      show ((feedQueue st.getters st.buffer).2.2.length : ℤ) ≤ max st.cap 0
      have h3 : ((feedQueue st.getters st.buffer).2.2.length : ℤ) ≤ (st.buffer.length : ℤ) := by
        exact_mod_cast h1
      omega

theorem triggerGet_blocksOk {tid : String} {s : SimState}
    (h : BlocksOk s.blocks) : BlocksOk (triggerGet tid s).blocks := by
  unfold triggerGet
  cases hl : lookupStore s tid with
  | none => exact h
  | some st => exact applyHandoffs_blocksOk _ _ h

theorem deliverEvent_of_target_none {s : SimState} {ev : StimEvent}
    (h : effTarget ev = none) : deliverEvent s ev = s := by
  simp only [deliverEvent, h]

theorem deliverEvent_of_store_none {s : SimState} {ev : StimEvent} {tid : String}
    (h : effTarget ev = some tid) (h2 : lookupStore s tid = none) :
    deliverEvent s ev = s := by
  simp only [deliverEvent, h, h2]

theorem deliverEvent_of_full {s : SimState} {ev : StimEvent} {tid : String} {st : StoreState}
    (h : effTarget ev = some tid) (h2 : lookupStore s tid = some st)
    (h3 : ¬ (st.buffer.length : ℤ) < st.cap) :
    deliverEvent s ev = s := by
  simp only [deliverEvent, h, h2, if_neg h3]

theorem deliverEvent_of_room {s : SimState} {ev : StimEvent} {tid : String} {st : StoreState}
    (h : effTarget ev = some tid) (h2 : lookupStore s tid = some st)
    (h3 : (st.buffer.length : ℤ) < st.cap) :
    deliverEvent s ev =
      { putItem s tid (.stim (effSignal ev) ev.value) with
          timeline := (putItem s tid (.stim (effSignal ev) ev.value)).timeline ++
            [{ timestamp_ms := s.now, block_id := tid, event_type := .stimulus,
               detail := .signal (effSignal ev) }] } := by
  simp only [deliverEvent, h, h2, if_pos h3]

theorem deliverEvent_storesOk {inp : Input} {s : SimState} {ev : StimEvent}
    (h : StoresOk inp s.stores) : StoresOk inp (deliverEvent s ev).stores := by
  rcases hT : effTarget ev with _ | tid
  · rw [deliverEvent_of_target_none hT]; exact h
  · rcases hl : lookupStore s tid with _ | st
    · rw [deliverEvent_of_store_none hT hl]; exact h
    · by_cases hroom : (st.buffer.length : ℤ) < st.cap
      · rw [deliverEvent_of_room hT hl hroom]
        show StoresOk inp (putItem s tid _).stores
        exact putItem_storesOk _ h hl hroom
      · rw [deliverEvent_of_full hT hl hroom]; exact h

theorem deliverEvent_blocksOk {s : SimState} {ev : StimEvent}
    (h : BlocksOk s.blocks) : BlocksOk (deliverEvent s ev).blocks := by
  rcases hT : effTarget ev with _ | tid
  · rw [deliverEvent_of_target_none hT]; exact h
  · rcases hl : lookupStore s tid with _ | st
    · rw [deliverEvent_of_store_none hT hl]; exact h
    · by_cases hroom : (st.buffer.length : ℤ) < st.cap
      · rw [deliverEvent_of_room hT hl hroom]
        show BlocksOk (putItem s tid _).blocks
        exact putItem_blocksOk _ h
      · rw [deliverEvent_of_full hT hl hroom]; exact h

theorem injectorStep_storesOk {inp : Input} {s : SimState}
    (h : StoresOk inp s.stores) : StoresOk inp (injectorStep inp s).stores := by
  rcases hE : (sortEventsByTime inp.scenario.events)[s.injIdx]? with _ | ev
  · simp only [injectorStep, hE]; exact h
  · rcases hE2 : (sortEventsByTime inp.scenario.events)[s.injIdx + 1]? with _ | ev2
    · simp only [injectorStep, hE, hE2]
      exact deliverEvent_storesOk h
    · simp only [injectorStep, hE, hE2]
      show StoresOk inp (deliverEvent s ev).stores
      exact deliverEvent_storesOk h

theorem injectorStep_blocksOk {inp : Input} {s : SimState}
    (h : BlocksOk s.blocks) : BlocksOk (injectorStep inp s).blocks := by
  rcases hE : (sortEventsByTime inp.scenario.events)[s.injIdx]? with _ | ev
  · simp only [injectorStep, hE]; exact h
  · rcases hE2 : (sortEventsByTime inp.scenario.events)[s.injIdx + 1]? with _ | ev2
    · simp only [injectorStep, hE, hE2]
      exact deliverEvent_blocksOk h
    · simp only [injectorStep, hE, hE2]
      show BlocksOk (deliverEvent s ev).blocks
      exact deliverEvent_blocksOk h

theorem beginProcessing_stores (inp : Input) (draws : ℕ → ℚ) (b : String) (item : Item)
    (s : SimState) : (beginProcessing inp draws b item s).stores = s.stores := by
  simp only [beginProcessing]
  split <;> rfl

theorem beginProcessing_blocksOk {inp : Input} {draws : ℕ → ℚ} {b : String} {item : Item}
    {s : SimState} (h : BlocksOk s.blocks) :
    BlocksOk (beginProcessing inp draws b item s).blocks := by
  simp only [beginProcessing]
  split
  · exact h
  · rename_i hneg
    show BlocksOk (updateAssoc b _ s.blocks)
    refine blocksOk_updateAssoc h ?_ ?_
    · exact (blocksOk_getD h b).1
    · intro f pr hpr
      have hinj := (Phase.processing.injEq _ _ _ _).mp hpr
      rw [← hinj.2]
      exact le_of_not_lt hneg

theorem forwardStep_of_skip {b : String} {seq : ℕ} {acc : SimState} {e : Edge}
    (hc : ¬ (e.kind = some "connects" ∧ e.source_id = some b)) :
    forwardStep b seq acc e = acc := by
  simp only [forwardStep, if_neg hc]

theorem forwardStep_of_target_none {b : String} {seq : ℕ} {acc : SimState} {e : Edge}
    (hc : e.kind = some "connects" ∧ e.source_id = some b) (ht : e.target_id = none) :
    forwardStep b seq acc e = acc := by
  simp only [forwardStep, if_pos hc, ht]

theorem forwardStep_of_store_none {b : String} {seq : ℕ} {acc : SimState} {e : Edge} {t : String}
    (hc : e.kind = some "connects" ∧ e.source_id = some b) (ht : e.target_id = some t)
    (hl : lookupStore acc t = none) : forwardStep b seq acc e = acc := by
  simp only [forwardStep, if_pos hc, ht, hl]

theorem forwardStep_of_store {b : String} {seq : ℕ} {acc : SimState} {e : Edge} {t : String}
    {st : StoreState} (hc : e.kind = some "connects" ∧ e.source_id = some b)
    (ht : e.target_id = some t) (hl : lookupStore acc t = some st) :
    forwardStep b seq acc e =
      if (st.buffer.length : ℤ) < st.cap then putItem acc t (.forwarded seq) else acc := by
  simp only [forwardStep, if_pos hc, ht, hl]

theorem forwardStep_ok {inp : Input} {b : String} {seq : ℕ} {acc : SimState} (e : Edge)
    (hs : StoresOk inp acc.stores) (hbk : BlocksOk acc.blocks) :
    StoresOk inp (forwardStep b seq acc e).stores ∧ BlocksOk (forwardStep b seq acc e).blocks := by
  by_cases hc : e.kind = some "connects" ∧ e.source_id = some b
  · rcases ht : e.target_id with _ | t
    · rw [forwardStep_of_target_none hc ht]; exact ⟨hs, hbk⟩
    · rcases hl : lookupStore acc t with _ | st
      · rw [forwardStep_of_store_none hc ht hl]; exact ⟨hs, hbk⟩
      · rw [forwardStep_of_store hc ht hl]
        by_cases hroom : (st.buffer.length : ℤ) < st.cap
        · rw [if_pos hroom]
          exact ⟨putItem_storesOk _ hs hl hroom, putItem_blocksOk _ hbk⟩
        · rw [if_neg hroom]; exact ⟨hs, hbk⟩
  · rw [forwardStep_of_skip hc]; exact ⟨hs, hbk⟩

theorem foldl_forwardStep_ok (inp : Input) (b : String) (seq : ℕ) :
    ∀ (es : List Edge) (acc : SimState), StoresOk inp acc.stores → BlocksOk acc.blocks →
      StoresOk inp (es.foldl (forwardStep b seq) acc).stores ∧
        BlocksOk (es.foldl (forwardStep b seq) acc).blocks := by
  intro es
  induction es with
  | nil => exact fun acc hs hbk => ⟨hs, hbk⟩
  | cons e es ih =>
    intro acc hs hbk
    rw [List.foldl_cons]
    exact ih _ (forwardStep_ok e hs hbk).1 (forwardStep_ok e hs hbk).2

theorem recordOutcome_stores (b : String) (failed : Bool) (procTime : ℚ) (s : SimState) :
    (recordOutcome b failed procTime s).stores = s.stores := rfl

theorem recordOutcome_blocksOk {b : String} {failed : Bool} {procTime : ℚ} {s : SimState}
    (h : BlocksOk s.blocks) (hpr : 0 ≤ procTime) :
    BlocksOk (recordOutcome b failed procTime s).blocks := by
  unfold recordOutcome
  show BlocksOk (updateAssoc b _ s.blocks)
  have hg := blocksOk_getD h b
  cases failed <;>
    exact blocksOk_updateAssoc h (by simp; linarith [hg.1]) (by
      intro f pr hpr'
      exact hg.2 f pr (by simpa using hpr'))

theorem blockReGet_of_store_none {b : String} {s : SimState}
    (hl : lookupStore s b = none) : blockReGet b s = s := by
  simp only [blockReGet, hl]

theorem blockReGet_of_empty {b : String} {s : SimState} {st : StoreState}
    (hl : lookupStore s b = some st) (hbuf : st.buffer = []) :
    blockReGet b s =
      setBlock (setStore s b { cap := st.cap, buffer := [], getters := st.getters ++ [b] }) b
        { (lookupBlock s b).getD default with phase := .waiting } := by
  simp only [blockReGet, hl, hbuf]

theorem blockReGet_of_cons {b : String} {s : SimState} {st : StoreState} {i : Item}
    {rest : List Item} (hl : lookupStore s b = some st) (hbuf : st.buffer = i :: rest) :
    blockReGet b s =
      pushWake (setBlock (setStore s b { cap := st.cap, buffer := rest, getters := st.getters }) b
        { (lookupBlock s b).getD default with phase := .gotItem i }) s.now (.block b) := by
  simp only [blockReGet, hl, hbuf]

theorem blockReGet_ok {inp : Input} {b : String} {s : SimState}
    (hs : StoresOk inp s.stores) (hb : BlocksOk s.blocks) :
    StoresOk inp (blockReGet b s).stores ∧ BlocksOk (blockReGet b s).blocks := by
  rcases hl : lookupStore s b with _ | st
  · rw [blockReGet_of_store_none hl]; exact ⟨hs, hb⟩
  · rcases hbuf : st.buffer with _ | ⟨i, rest⟩
    · rw [blockReGet_of_empty hl hbuf]
      constructor
      · show StoresOk inp (updateAssoc b _ s.stores)
        refine storesOk_updateAssoc hs ?_ ?_
        · exact (storesOk_lookup hs hl).1
        · show ((List.length ([] : List Item)) : ℤ) ≤ max st.cap 0
          simp
      · show BlocksOk (updateAssoc b _ s.blocks)
        refine blocksOk_updateAssoc hb ?_ ?_
        · exact (blocksOk_getD hb b).1
        · intro f pr hpr
          exact Phase.noConfusion (show Phase.waiting = Phase.processing f pr from hpr)
    · rw [blockReGet_of_cons hl hbuf]
      constructor
      · show StoresOk inp (updateAssoc b _ s.stores)
        refine storesOk_updateAssoc hs ?_ ?_
        · exact (storesOk_lookup hs hl).1
        · have h2 := (storesOk_lookup hs hl).2
          rw [hbuf] at h2
          show ((rest.length : ℤ)) ≤ max st.cap 0
          simp at h2
          omega
      · show BlocksOk (updateAssoc b _ s.blocks)
        refine blocksOk_updateAssoc hb ?_ ?_
        · exact (blocksOk_getD hb b).1
        · intro f pr hpr
          exact Phase.noConfusion (show Phase.gotItem i = Phase.processing f pr from hpr)

theorem finishProcessing_ok {inp : Input} {b : String} {failed : Bool} {procTime : ℚ}
    {s : SimState} (hs : StoresOk inp s.stores) (hb : BlocksOk s.blocks) (hpr : 0 ≤ procTime) :
    StoresOk inp (finishProcessing inp b failed procTime s).stores ∧
      BlocksOk (finishProcessing inp b failed procTime s).blocks := by
  unfold finishProcessing
  have hs1 : StoresOk inp (recordOutcome b failed procTime s).stores := by
    rw [recordOutcome_stores]; exact hs
  have hb1 : BlocksOk (recordOutcome b failed procTime s).blocks :=
    recordOutcome_blocksOk hb hpr
  cases failed with
  | true => exact blockReGet_ok hs1 hb1
  | false =>
    have h2 := foldl_forwardStep_ok inp b ((lookupBlock s b).getD default).itemSeq
      inp.edges _ hs1 hb1
    exact blockReGet_ok (by exact h2.1) (by exact h2.2)

theorem runTask_block_none {inp : Input} {draws : ℕ → ℚ} {b : String} {s : SimState}
    (hl : lookupBlock s b = none) : runTask inp draws (.block b) s = s := by
  simp only [runTask, hl]

theorem runTask_block_some {inp : Input} {draws : ℕ → ℚ} {b : String} {s : SimState}
    {bs : BlockState} (hl : lookupBlock s b = some bs) :
    runTask inp draws (.block b) s =
      match bs.phase with
      | .gotItem item => beginProcessing inp draws b item s
      | .processing failed procTime => finishProcessing inp b failed procTime s
      | .waiting => s := by
  simp only [runTask, hl]

theorem runTask_ok {inp : Input} {draws : ℕ → ℚ} {task : WakeTask} {s : SimState}
    (hs : StoresOk inp s.stores) (hb : BlocksOk s.blocks) :
    StoresOk inp (runTask inp draws task s).stores ∧ BlocksOk (runTask inp draws task s).blocks := by
  cases task with
  | injector => exact ⟨injectorStep_storesOk hs, injectorStep_blocksOk hb⟩
  | storePut tid => exact ⟨triggerGet_storesOk hs, triggerGet_blocksOk hb⟩
  | block b =>
    rcases hl : lookupBlock s b with _ | bs
    · rw [runTask_block_none hl]; exact ⟨hs, hb⟩
    · rw [runTask_block_some hl]
      rcases hph : bs.phase with _ | item | ⟨f, pr⟩
      · exact ⟨hs, hb⟩
      · refine ⟨?_, beginProcessing_blocksOk hb⟩
        rw [beginProcessing_stores]
        exact hs
      · exact finishProcessing_ok hs hb ((hb (b, bs) (lookup_mem hl)).2 f pr hph)

theorem stepSim_ok {inp : Input} {draws : ℕ → ℚ} {duration : ℚ} {s s' : SimState}
    (hs : StoresOk inp s.stores) (hb : BlocksOk s.blocks)
    (hstep : stepSim inp draws duration s = some s') :
    StoresOk inp s'.stores ∧ BlocksOk s'.blocks := by
  rcases hq : s.queue with _ | ⟨⟨t, sq, task⟩, rest⟩
  · rw [show stepSim inp draws duration s = none by unfold stepSim; rw [hq]] at hstep
    exact absurd hstep (by simp)
  · have he : stepSim inp draws duration s =
        if duration ≤ t then none
        else some (runTask inp draws task { s with now := t, queue := rest }) := by
      unfold stepSim; rw [hq]
    rw [he] at hstep
    by_cases hd : duration ≤ t
    · rw [if_pos hd] at hstep
      exact absurd hstep (by simp)
    · rw [if_neg hd] at hstep
      cases hstep
      exact runTask_ok hs hb

theorem runLoop_ok {inp : Input} {draws : ℕ → ℚ} {duration : ℚ} :
    ∀ (fuel : ℕ) (s : SimState), StoresOk inp s.stores → BlocksOk s.blocks →
      StoresOk inp (runLoop inp draws duration fuel s).stores ∧
        BlocksOk (runLoop inp draws duration fuel s).blocks := by
  intro fuel
  induction fuel with
  | zero => exact fun s hs hb => ⟨hs, hb⟩
  | succ n ih =>
    intro s hs hb
    rw [runLoop]
    cases hstep : stepSim inp draws duration s with
    | none => exact ⟨hs, hb⟩
    | some s' =>
      have h' := stepSim_ok hs hb hstep
      by_cases herr : s'.error = true
      · simp [herr]
        exact h'
      · simp [herr]
        exact ih s' h'.1 h'.2

theorem initState_ok (inp : Input) :
    StoresOk inp (initState inp).stores ∧ BlocksOk (initState inp).blocks := by
  constructor
  · intro p hp
    simp only [initState] at hp
    rcases List.mem_map.mp hp with ⟨b, hb, rfl⟩
    exact ⟨rfl, by simp⟩
  · intro p hp
    simp only [initState] at hp
    rcases List.mem_map.mp hp with ⟨b, hb, rfl⟩
    refine ⟨le_refl 0, ?_⟩
    intro f pr hpr
    simp at hpr

theorem simAfter_ok (inp : Input) (draws : ℕ → ℚ) (fuel : ℕ) :
    StoresOk inp (simAfter inp draws fuel).stores ∧ BlocksOk (simAfter inp draws fuel).blocks :=
  runLoop_ok fuel (initState inp) (initState_ok inp).1 (initState_ok inp).2

theorem mkMetrics_queue_depth (duration : ℚ) (s : SimState) (b : String) :
    (mkMetrics duration s b).queue_depth = ((lookupStore s b).getD default).buffer.length := rfl

theorem mkMetrics_utilization (duration : ℚ) (s : SimState) (b : String) :
    (mkMetrics duration s b).utilization =
      round4 (min (if 0 < duration then ((lookupBlock s b).getD default).busy / duration else 0) 1) :=
  rfl

theorem run_deterministic_lookup {inp : Input} {b : String} {m : BlockMetrics}
    (h : (run_deterministic inp).metrics.lookup b = some m) :
    m = detMetricsFor (effDuration inp.scenario.duration_ms) (paramsOf inp b) := by
  have key : ∀ (ns : List Node) (acc : List (String × BlockMetrics)),
      (∀ m', acc.lookup b = some m' →
        m' = detMetricsFor (effDuration inp.scenario.duration_ms) (paramsOf inp b)) →
      ∀ m', (ns.foldl
          (fun acc n =>
            if n.kind = "block" then
              updateAssoc n.id
                (detMetricsFor (effDuration inp.scenario.duration_ms) (paramsOf inp n.id)) acc
            else acc) acc).lookup b = some m' →
        m' = detMetricsFor (effDuration inp.scenario.duration_ms) (paramsOf inp b) := by
    intro ns
    induction ns with
    | nil => exact fun acc hacc m' hm' => hacc m' hm'
    | cons n ns ih =>
      intro acc hacc m' hm'
      rw [List.foldl_cons] at hm'
      refine ih _ ?_ m' hm'
      intro m'' hm''
      by_cases hk : n.kind = "block"
      · rw [if_pos hk, lookup_updateAssoc] at hm''
        by_cases hb : b = n.id
        · rw [if_pos hb] at hm''
          cases hm''
          rw [hb]
        · rw [if_neg hb] at hm''
          exact hacc m'' hm''
      · rw [if_neg hk] at hm''
        exact hacc m'' hm''
  exact key inp.nodes [] (by intro m' hm'; simp [List.lookup] at hm') m h

theorem run_with_simpy_lookup {inp : Input} {draws : ℕ → ℚ} {fuel : ℕ} {b : String}
    {m : BlockMetrics} (h : (run_with_simpy inp draws fuel).metrics.lookup b = some m) :
    b ∈ simBlockIds inp ∧
      m = mkMetrics (effDuration inp.scenario.duration_ms) (simAfter inp draws fuel) b ∧
      ¬ effDuration inp.scenario.duration_ms ≤ 0 ∧
      ∀ b' ∈ simBlockIds inp, ¬ effCap (paramsOf inp b') ≤ 0 := by
  simp only [run_with_simpy] at h
  by_cases hcap :
      ((simBlockIds inp).any fun b => decide (effCap (paramsOf inp b) ≤ 0)) = true
  · rw [if_pos hcap] at h
    simp [simErrorResponse, List.lookup] at h
  · rw [if_neg hcap] at h
    by_cases hdur : effDuration inp.scenario.duration_ms ≤ 0
    · rw [if_pos hdur] at h
      simp [simErrorResponse, List.lookup] at h
    · rw [if_neg hdur] at h
      by_cases herr : (simAfter inp draws fuel).error = true
      · rw [if_pos herr] at h
        simp [simErrorResponse, List.lookup] at h
      · rw [if_neg herr] at h
        have hmp := lookup_map_pair _ _ _ _ h
        refine ⟨hmp.1, hmp.2, hdur, ?_⟩
        intro b' hb' hle
        exact hcap (List.any_eq_true.mpr ⟨b', hb', by simpa using hle⟩)

/-- Claim C1 counterexample: on the request `c1Input` — one block with
`failure_rate = 1` and an always-faulting custom policy, one stimulus — every
parametric draw would mark the item failed (the draw 0 satisfies
`0 < failure_rate`), yet the run reports the item as processed
(`processed_count = 1`, `failures = 0`): the fault fallback does not draw
the failure outcome from the parametric model, contradicting the claim. -/
theorem claim_C1_counterexample :
    (run_with_simpy c1Input d0 12).metrics.lookup "b" =
        some { utilization := 1/10, queue_depth := 0, processed_count := 1, failures := 0 } ∧
    d0 0 < effRate (paramsOf c1Input "b") ∧
    (run_with_simpy c1Input d0 12).status = .complete ∧
    (run_with_simpy c1Input d0 12).errors = [] := by
  decide

/-- Claim C1 (amended): if invoking the custom policy raises a fault or
yields a malformed result, the item is handled with `failed = False` (no
parametric random draw) and its duration set to `processing_time_ms`; the
run completes with status `complete` and no entry attributable to the fault
appears in the errors list (shown on the always-faulting run `c1Input`). -/
theorem claim_C1_amended :
    (∀ (f : Script) (p : Params) (draws : ℕ → ℚ) (k : ℕ) (item : Item) (now : ℚ),
        f item p now = none →
        evalPolicy (some f) p draws k item now = (false, effPtime p, k)) ∧
    run_with_simpy c1Input d0 12 =
      { status := .complete,
        metrics := [("b", { utilization := 1/10, queue_depth := 0, processed_count := 1,
                            failures := 0 })],
        timeline := [{ timestamp_ms := 0, block_id := "b", event_type := .stimulus,
                       detail := .signal "trigger" },
                     { timestamp_ms := 100, block_id := "b", event_type := .processed,
                       detail := .itemDone 1 100 }],
        errors := [] } := by
  constructor
  · intro f p draws k item now hf
    simp [evalPolicy, hf]
  · decide

/-- Witness for the amended C1 policy-fallback equation at a concrete
always-faulting script. -/
theorem claim_C1_amended_witness :
    ((fun (_ : Item) (_ : Params) (_ : ℚ) => (none : Option (Bool × ℚ)))
        (Item.forwarded 1) {} 0 = none) ∧
    evalPolicy (some fun _ _ _ => none) {} d0 0 (Item.forwarded 1) 0 =
      (false, effPtime {}, 0) :=
  ⟨rfl, claim_C1_amended.1 (fun _ _ _ => none) {} d0 0 (Item.forwarded 1) 0 rfl⟩

/-- Claim C2: with `duration_ms = 0` the engine substitutes the default
duration 10000 (`scenario.get("duration_ms") or 10000` treats 0 as missing),
so the deterministic path reports `processed_count = 100` and
`utilization = 1` for a block with `processing_time_ms = 100` — not the
all-zero metrics the claim requires. -/
theorem claim_C2_eval :
    c2Input.scenario.duration_ms = some 0 ∧
    effDuration c2Input.scenario.duration_ms = 10000 ∧
    run_deterministic c2Input =
      { status := .complete,
        metrics := [("b", { utilization := 1, queue_depth := 0, processed_count := 100,
                            failures := 0 })],
        timeline := [], errors := [simpyAdvisory] } := by
  decide

/-- Claim C3 counterexample: on `c3Input` all three stimulus events target
the existing block "b", but the timeline contains only two `stimulus`
entries — the third stimulus arrives at a full store and the injector
appends no entry for it, contradicting "appends a stimulus TimelineEntry
... regardless of whether the try_put was accepted". -/
theorem claim_C3_counterexample :
    stimulusCount (run_with_simpy c3Input d0 20).timeline = 2 ∧
    c3Input.scenario.events.length = 3 ∧
    (∀ ev ∈ c3Input.scenario.events, effTarget ev = some "b") ∧
    "b" ∈ simBlockIds c3Input := by
  decide

/-- Claim C3 (amended): the Event Injector appends a `stimulus`
TimelineEntry only when the put is accepted (store strictly below
capacity); a stimulus arriving at a full store is dropped with no state
change at all.  The same-timestamp scenario of the claim still holds: two
stimuli at the same timestamp to the same idle block with
`queue_capacity = 1` produce two stimulus timeline entries, because the
first item is handed synchronously to the waiting block, leaving the store
empty for the second. -/
theorem claim_C3_amended :
    (∀ (s : SimState) (ev : StimEvent) (tid : String) (st : StoreState),
        effTarget ev = some tid → lookupStore s tid = some st →
        ¬ (st.buffer.length : ℤ) < st.cap → deliverEvent s ev = s) ∧
    (∀ (s : SimState) (ev : StimEvent) (tid : String) (st : StoreState),
        effTarget ev = some tid → lookupStore s tid = some st →
        (st.buffer.length : ℤ) < st.cap →
        (deliverEvent s ev).timeline = s.timeline ++
          [{ timestamp_ms := s.now, block_id := tid, event_type := .stimulus,
             detail := .signal (effSignal ev) }]) ∧
    stimulusCount (run_with_simpy c3bInput d0 20).timeline = 2 := by
  refine ⟨?_, ?_, by decide⟩
  · intro s ev tid st h h2 h3
    exact deliverEvent_of_full h h2 h3
  · intro s ev tid st h h2 h3
    rw [deliverEvent_of_room h h2 h3]
    show (putItem s tid _).timeline ++ _ = _
    rw [putItem_timeline]

/-- Witness for the amended C3 at a concrete full store: the delivery is a
no-op. -/
theorem claim_C3_amended_witness :
    (effTarget c3Event = some "q" ∧
      lookupStore c3State "q" = some { cap := 1, buffer := [Item.forwarded 4], getters := [] } ∧
      ¬ ((([Item.forwarded 4] : List Item).length : ℤ) < (1 : ℤ))) ∧
    deliverEvent c3State c3Event = c3State :=
  ⟨⟨by decide, by decide, by decide⟩,
    claim_C3_amended.1 c3State c3Event "q"
      { cap := 1, buffer := [Item.forwarded 4], getters := [] }
      (by decide) (by decide) (by decide)⟩

/-- Claim C4 counterexample: the event of `c4Input` carries
`target_block_id = "b2"` but also `block_id = "b1"`; the injected item goes
to "b1" (stimulus entry and processing for "b1", nothing for "b2"), so the
receiving store is not the one named by `target_block_id`. -/
theorem claim_C4_counterexample :
    c4Input.scenario.events =
      [{ time_ms := some 0, block_id := some "b1", target_block_id := some "b2" }] ∧
    (run_with_simpy c4Input d0 20).timeline =
      [{ timestamp_ms := 0, block_id := "b1", event_type := .stimulus,
         detail := .signal "trigger" },
       { timestamp_ms := 100, block_id := "b1", event_type := .processed,
         detail := .itemDone 1 100 }] ∧
    (run_with_simpy c4Input d0 20).metrics.lookup "b2" =
      some { utilization := 0, queue_depth := 0, processed_count := 0, failures := 0 } ∧
    (run_with_simpy c4Input d0 20).metrics.lookup "b1" =
      some { utilization := 1/10, queue_depth := 0, processed_count := 1, failures := 0 } := by
  decide

/-- Claim C4 (amended): the store receiving an injected stimulus is the one
named by the event's `block_id` field, or, when that is absent or empty, by
its `target_id` field; the `target_block_id` field of the schema is never
consulted — delivery is invariant under arbitrary changes to it (first
conjunct), and a concrete delivery with `block_id = "b1"`,
`target_block_id = "b2"` puts the item into the store of "b1" and leaves
"b2" untouched. -/
theorem claim_C4_amended :
    (∀ (s : SimState) (ev : StimEvent) (x : Option String),
        deliverEvent s ev = deliverEvent s { ev with target_block_id := x }) ∧
    lookupStore (deliverEvent c4State c4Event) "b1" =
        some { cap := 5, buffer := [Item.stim "trigger" none], getters := [] } ∧
    lookupStore (deliverEvent c4State c4Event) "b2" =
        some { cap := 5, buffer := [], getters := [] } ∧
    (deliverEvent c4State c4Event).timeline =
      [{ timestamp_ms := 7, block_id := "b1", event_type := .stimulus,
         detail := .signal "trigger" }] := by
  refine ⟨?_, by decide, by decide, by decide⟩
  intro s ev x
  cases ev
  rfl

/-- Claim C5 counterexample: on the deterministic path with
`processing_time_ms = 100`, `failure_rate = 1/2`, `duration_ms = 10000`,
the claim's formula gives `floor(10000/100) = 100`, but the reported
`processed_count` is 50: the code subtracts the failures
(`max(0, processed - failures)`). -/
theorem claim_C5_counterexample :
    (run_deterministic c5Input).metrics.lookup "b" =
        some { utilization := 1, queue_depth := 0, processed_count := 50, failures := 50 } ∧
    pyTrunc (effDuration c5Input.scenario.duration_ms / effPtime (paramsOf c5Input "b")) = 100 ∧
    (50 : ℤ) ≠ 100 := by
  decide

/-- Claim C5 (amended): on the deterministic path, with `p` the truncated
closed-form count (`trunc(throughput_per_sec * duration/1000)` when
`throughput_per_sec` is given and nonzero, else `trunc(duration/p_t)` where
`p_t` is `processing_time_ms` if nonzero else the default 100), the
reported `failures` is `trunc(p * failure_rate)` and the reported
`processed_count` is `max 0 (p - failures)` — not `p` itself. -/
theorem claim_C5_amended :
    ∀ (inp : Input) (b : String) (m : BlockMetrics),
      (run_deterministic inp).metrics.lookup b = some m →
      m.processed_count =
        max 0 (detProcessed (effDuration inp.scenario.duration_ms) (paramsOf inp b) -
          pyTrunc ((detProcessed (effDuration inp.scenario.duration_ms) (paramsOf inp b) : ℚ) *
            effRate (paramsOf inp b))) ∧
      m.failures =
        pyTrunc ((detProcessed (effDuration inp.scenario.duration_ms) (paramsOf inp b) : ℚ) *
          effRate (paramsOf inp b)) := by
  intro inp b m h
  rw [run_deterministic_lookup h]
  exact ⟨rfl, rfl⟩

/-- Witness for the amended C5 on the concrete request `c5Input`. -/
theorem claim_C5_amended_witness :
    ((run_deterministic c5Input).metrics.lookup "b" =
        some { utilization := 1, queue_depth := 0, processed_count := 50, failures := 50 }) ∧
    (({ utilization := 1, queue_depth := 0, processed_count := 50, failures := 50 }
        : BlockMetrics).processed_count =
      max 0 (detProcessed (effDuration c5Input.scenario.duration_ms) (paramsOf c5Input "b") -
        pyTrunc ((detProcessed (effDuration c5Input.scenario.duration_ms)
            (paramsOf c5Input "b") : ℚ) * effRate (paramsOf c5Input "b"))) ∧
      ({ utilization := 1, queue_depth := 0, processed_count := 50, failures := 50 }
        : BlockMetrics).failures =
        pyTrunc ((detProcessed (effDuration c5Input.scenario.duration_ms)
            (paramsOf c5Input "b") : ℚ) * effRate (paramsOf c5Input "b"))) :=
  ⟨by decide, claim_C5_amended c5Input "b" _ (by decide)⟩

/-- Claim C6 counterexample: the block of `c6Input` is configured with
`queue_capacity = 0`, yet its final reported queue depth is 1: the code
replaces the falsy 0 by the default capacity 100, so the depth exceeds the
configured capacity. -/
theorem claim_C6_counterexample :
    (paramsOf c6Input "b").queue_capacity = some 0 ∧
    (run_with_simpy c6Input d0 20).metrics.lookup "b" =
      some { utilization := 0, queue_depth := 1, processed_count := 0, failures := 0 } ∧
    ¬ ((1 : ℤ) ≤ 0) := by
  decide

/-- Claim C6 (amended): at every point of every run, each store's buffer
length never exceeds `max(effective capacity, 0)`, where the effective
capacity is `int(queue_capacity or 100)` — the configured value when it is
a nonzero number, else the default 100; and in every completed run's
report, each block's `queue_depth` is at most that effective capacity. -/
theorem claim_C6_amended :
    (∀ (inp : Input) (draws : ℕ → ℚ) (n : ℕ) (bid : String) (st : StoreState),
        lookupStore (simAfter inp draws n) bid = some st →
        (st.buffer.length : ℤ) ≤ max (effCap (paramsOf inp bid)) 0) ∧
    (∀ (inp : Input) (draws : ℕ → ℚ) (fuel : ℕ) (bid : String) (m : BlockMetrics),
        (run_with_simpy inp draws fuel).metrics.lookup bid = some m →
        (m.queue_depth : ℤ) ≤ effCap (paramsOf inp bid)) := by
  constructor
  · intro inp draws n bid st hl
    have hOk := (simAfter_ok inp draws n).1 (bid, st) (lookup_mem hl)
    rw [← hOk.1]
    exact hOk.2
  · intro inp draws fuel bid m h
    obtain ⟨hmem, hm, hdur, hcap⟩ := run_with_simpy_lookup h
    have hpos : 0 < effCap (paramsOf inp bid) := lt_of_not_le (hcap bid hmem)
    rw [hm, mkMetrics_queue_depth]
    rcases hst : lookupStore (simAfter inp draws fuel) bid with _ | st
    · have hz : (((none : Option StoreState).getD default).buffer.length : ℤ) = 0 := by decide
      omega
    · have hOk := (simAfter_ok inp draws fuel).1 (bid, st) (lookup_mem hst)
      have h2 := hOk.2
      rw [hOk.1, max_eq_left hpos.le] at h2
      exact h2

/-- Witness for the amended C6 on the concrete run of `c6Input`. -/
theorem claim_C6_amended_witness :
    ((run_with_simpy c6Input d0 20).metrics.lookup "b" =
        some { utilization := 0, queue_depth := 1, processed_count := 0, failures := 0 }) ∧
    ((({ utilization := 0, queue_depth := 1, processed_count := 0, failures := 0 }
        : BlockMetrics).queue_depth : ℤ) ≤ effCap (paramsOf c6Input "b")) :=
  ⟨by decide, claim_C6_amended.2 c6Input d0 20 "b" _ (by decide)⟩

/-- Claim C7 counterexample: on the deterministic path with
`throughput_per_sec = -1` over 1000 ms, the reported utilization is
-1/10, which is not in [0, 1]. -/
theorem claim_C7_counterexample :
    (run_deterministic c7Input).metrics.lookup "b" =
        some { utilization := -1/10, queue_depth := 0, processed_count := 0, failures := 0 } ∧
    ¬ (0 ≤ (-1/10 : ℚ)) := by
  decide

/-- Claim C7 (amended): on the full-simulation path every reported
utilization lies in [0, 1]; on the deterministic path it lies in [0, 1]
whenever `processing_time_ms * processed` is nonnegative — in particular
whenever the parameters are nonnegative; a negative `throughput_per_sec`
can produce a negative utilization. -/
theorem claim_C7_amended :
    (∀ (inp : Input) (draws : ℕ → ℚ) (fuel : ℕ) (b : String) (m : BlockMetrics),
        (run_with_simpy inp draws fuel).metrics.lookup b = some m →
        0 ≤ m.utilization ∧ m.utilization ≤ 1) ∧
    (∀ (inp : Input) (b : String) (m : BlockMetrics),
        (run_deterministic inp).metrics.lookup b = some m →
        0 ≤ effPtime (paramsOf inp b) *
          (detProcessed (effDuration inp.scenario.duration_ms) (paramsOf inp b) : ℚ) →
        0 ≤ m.utilization ∧ m.utilization ≤ 1) := by
  constructor
  · intro inp draws fuel b m h
    obtain ⟨hmem, hm, hdur, hcap⟩ := run_with_simpy_lookup h
    rw [hm, mkMetrics_utilization]
    have hbusy : 0 ≤ ((lookupBlock (simAfter inp draws fuel) b).getD default).busy :=
      (blocksOk_getD (simAfter_ok inp draws fuel).2 b).1
    have hutil : 0 ≤ (if 0 < effDuration inp.scenario.duration_ms then
        ((lookupBlock (simAfter inp draws fuel) b).getD default).busy /
          effDuration inp.scenario.duration_ms else 0) := by
      split
      · rename_i hd
        exact div_nonneg hbusy hd.le
      · exact le_refl 0
    exact ⟨round4_nonneg (le_min hutil zero_le_one), round4_le_one (min_le_right _ _)⟩
  · intro inp b m h hprod
    rw [run_deterministic_lookup h]
    simp only [detMetricsFor]
    by_cases hd : 0 < effDuration inp.scenario.duration_ms
    · rw [if_pos hd]
      refine ⟨round4_nonneg (le_min (div_nonneg hprod hd.le) zero_le_one),
        round4_le_one (min_le_right _ _)⟩
    · rw [if_neg hd]
      exact ⟨round4_nonneg (le_refl 0), round4_le_one zero_le_one⟩

/-- Witness for the amended C7 on the concrete runs of `c3bInput` (full
simulation) and `c5Input` (deterministic). -/
theorem claim_C7_amended_witness :
    ((run_with_simpy c3bInput d0 20).metrics.lookup "b" =
        some { utilization := 1/5, queue_depth := 0, processed_count := 2, failures := 0 }) ∧
    (0 ≤ ({ utilization := 1/5, queue_depth := 0, processed_count := 2, failures := 0 }
        : BlockMetrics).utilization ∧
      ({ utilization := 1/5, queue_depth := 0, processed_count := 2, failures := 0 }
        : BlockMetrics).utilization ≤ 1) :=
  ⟨by decide, claim_C7_amended.1 c3bInput d0 20 "b" _ (by decide)⟩

/-- Claim C8: the full-simulation run is a pure function of the request and
the stream of random draws: two runs on equal inputs with equal draws (a
fixed seed) produce equal metrics and equal timelines. -/
theorem claim_C8_determinism :
    ∀ (inp inp2 : Input) (draws draws2 : ℕ → ℚ) (fuel : ℕ),
      inp = inp2 → draws = draws2 →
      (run_with_simpy inp draws fuel).metrics = (run_with_simpy inp2 draws2 fuel).metrics ∧
      (run_with_simpy inp draws fuel).timeline = (run_with_simpy inp2 draws2 fuel).timeline := by
  intro inp inp2 draws draws2 fuel h1 h2
  subst h1
  subst h2
  exact ⟨rfl, rfl⟩

/-- Witness for C8 at a concrete request. -/
theorem claim_C8_determinism_witness :
    (c3bInput = c3bInput) ∧ ((d0 : ℕ → ℚ) = d0) ∧
    (run_with_simpy c3bInput d0 20).metrics = (run_with_simpy c3bInput d0 20).metrics ∧
    (run_with_simpy c3bInput d0 20).timeline = (run_with_simpy c3bInput d0 20).timeline :=
  ⟨rfl, rfl, claim_C8_determinism c3bInput c3bInput d0 d0 20 rfl rfl⟩

/-- Claim C9: when SimPy is unavailable the dispatcher returns exactly the
Deterministic Approximator's response: status `complete`, with the
degradation advisory as the only errors entry — never an error-status
response. -/
theorem claim_C9_degraded_complete :
    ∀ (inp : Input) (draws : ℕ → ℚ) (fuel : ℕ),
      process false inp draws fuel = run_deterministic inp ∧
      (run_deterministic inp).status = .complete ∧
      (run_deterministic inp).errors = [simpyAdvisory] := by
  intro inp draws fuel
  exact ⟨rfl, rfl, rfl⟩

/-- Claim C10: a stimulus event whose resolved target is absent or names no
existing store is skipped with no state change at all (no insertion, no
timeline entry, no error), and a run containing only such an event is
identical to the run without it, completing with status `complete`. -/
theorem claim_C10_skip_silent :
    (∀ (s : SimState) (ev : StimEvent),
        (effTarget ev).bind (lookupStore s) = none → deliverEvent s ev = s) ∧
    run_with_simpy c10Input d0 10 = run_with_simpy c10BaseInput d0 10 ∧
    (run_with_simpy c10Input d0 10).status = .complete ∧
    (run_with_simpy c10Input d0 10).timeline = [] ∧
    (run_with_simpy c10Input d0 10).errors = [] := by
  refine ⟨?_, by decide, by decide, by decide, by decide⟩
  intro s ev h
  rcases hT : effTarget ev with _ | tid
  · exact deliverEvent_of_target_none hT
  · rw [hT] at h
    simp only [Option.some_bind] at h
    exact deliverEvent_of_store_none hT h

/-- Witness for C10 at the concrete unknown-target event of `c10Input`. -/
theorem claim_C10_skip_silent_witness :
    ((effTarget c10Event).bind (lookupStore (initState c10Input)) = none) ∧
    deliverEvent (initState c10Input) c10Event = initState c10Input :=
  ⟨by decide, claim_C10_skip_silent.1 (initState c10Input) c10Event (by decide)⟩

end SimEngine
